import Mathlib

/-!
Verification development for the multimodal-transcription pipeline.

This file gives a shallow embedding, in Lean 4, of the pipeline's core
components, translated from the Python sources:

* `src/utils/video_utils.py`          — `parse_timestamp`, `format_timestamp`
* `src/core/chunking/video_chunker.py`— time-based chunk boundary computation
* `src/core/validation/transcript_validator.py` — the validation rules
* `src/core/transcription/transcript_combiner.py` — merged-transcript creation
* `src/core/transcription/transcript_analyzer.py` — per-chunk dispatch results
* `src/core/pipeline.py`, `src/models.py`, `src/storage/cache_manager.py`
  — the configuration fingerprint and the transcript cache

Embedding conventions:
* Python floats are modelled as `ℚ`; float literals such as `59.999` become
  the exact rational `59999/1000` (the binary rounding of IEEE doubles is
  not modelled).
* Python exceptions become `Option`: a sub-computation that may raise
  returns `none`, and a `try`/`except` block is `Option` matching with the
  handler as the `none` branch.
* Python dictionaries with a fixed key schema become structures; a key that
  may be absent (`dict.get`) becomes an `Option` field.
* Python's stable `list.sort(key=...)` / `sorted(key=...)` is modelled by
  `List.insertionSort` with the relation `fun a b => key a ≤ key b`, which
  is a stable sort by that key.
-/

namespace Transcription

/-! ### Decimal rendering of naturals

Models Python's `str(n)` / f-string formatting of a non-negative integer,
used by `get_config_hash` (`models.py`) and `format_timestamp`
(`video_utils.py`).  The round-trip lemma below gives injectivity, which
stands in for the collision-freeness of the configuration fingerprint. -/

/-- Decimal digit characters, most significant first, computed with
explicit fuel (`fuel` bounds the digit count; any `fuel > n` is enough,
and the structural recursion keeps the definition kernel-evaluable). -/
def natDigitsAux : ℕ → ℕ → List Char
  | 0, _ => []
  | fuel + 1, n =>
      if n < 10 then [Nat.digitChar n]
      else natDigitsAux fuel (n / 10) ++ [Nat.digitChar (n % 10)]

/-- Decimal digit characters of `n`, most significant first. -/
def natDigits (n : ℕ) : List Char := natDigitsAux (n + 1) n

/-- Decimal rendering of a natural number, as Python's `str(n)`. -/
def natToString (n : ℕ) : String := String.mk (natDigits n)

/-- Numeric value of a digit character. -/
def digitVal (c : Char) : ℕ := c.toNat - 48

/-- Value of a digit-character list read in base 10. -/
def digitsVal (l : List Char) : ℕ := l.foldl (fun a c => a * 10 + digitVal c) 0

theorem digitVal_digitChar {d : ℕ} (h : d < 10) : digitVal (Nat.digitChar d) = d := by
  interval_cases d <;> rfl

theorem digitsVal_append (l : List Char) (c : Char) :
    digitsVal (l ++ [c]) = digitsVal l * 10 + digitVal c := by
  simp [digitsVal, List.foldl_append]

theorem digitsVal_natDigitsAux :
    ∀ fuel n : ℕ, n ≤ fuel → digitsVal (natDigitsAux (fuel + 1) n) = n := by
  intro fuel
  induction fuel with
  | zero =>
      intro n hn
      have hn0 : n = 0 := Nat.le_zero.mp hn
      subst hn0
      rfl
  | succ f ih =>
      intro n hn
      rw [natDigitsAux]
      by_cases h : n < 10
      · simp only [if_pos h]
        simp [digitsVal, digitVal_digitChar h]
      · simp only [if_neg h]
        have hdiv10 : n / 10 < n := Nat.div_lt_self (by omega) (by decide)
        have hdiv : n / 10 ≤ f := by omega
        rw [digitsVal_append, ih (n / 10) hdiv,
          digitVal_digitChar (Nat.mod_lt _ (by omega))]
        omega

theorem digitsVal_natDigits (n : ℕ) : digitsVal (natDigits n) = n :=
  digitsVal_natDigitsAux n n (le_refl n)

theorem natToString_injective : Function.Injective natToString := by
  intro a b h
  have hd : natDigits a = natDigits b := congrArg String.data h
  have := congrArg digitsVal hd
  rwa [digitsVal_natDigits, digitsVal_natDigits] at this

/-! ### The timestamp parser (`video_utils.parse_timestamp`)

`parse_timestamp` in `src/utils/video_utils.py` splits its input on `":"`,
converts the fragments with Python's `int()` / `float()`, clamps
out-of-range fragments (seconds ≥ 60 → 59.999, minutes ≥ 60 in the
`HH:MM:SS` form → 59), and wraps the whole body in `try`/`except` that
returns `0.0` on any failure.

`pyInt?` and `pyFloat?` model `int(s)` / `float(s)` on plain decimal
strings (optional sign, digits, and for floats an optional fractional
part); any other string is `none` (an exception). -/

/-- Split a character list at every occurrence of `sep`, as Python's
`str.split(sep)` (so the empty string yields `[[]]`). -/
def splitOnChar (sep : Char) : List Char → List (List Char)
  | [] => [[]]
  | c :: cs =>
    match splitOnChar sep cs with
    | r :: rs => if c = sep then [] :: r :: rs else (c :: r) :: rs
    | [] => [[c]]

/-- Split off an optional leading sign; `true` means negative. -/
def splitSign : List Char → Bool × List Char
  | '-' :: rest => (true, rest)
  | '+' :: rest => (false, rest)
  | cs => (false, cs)

/-- Value of a digit list, `none` unless it is nonempty and all digits. -/
def digitsNat? (cs : List Char) : Option ℕ :=
  if cs ≠ [] ∧ ∀ c ∈ cs, c.isDigit then some (digitsVal cs) else none

/-- Models Python's `int(s)` on decimal strings. -/
def pyInt? (s : List Char) : Option ℤ :=
  let (neg, cs) := splitSign s
  (digitsNat? cs).map fun n => if neg then -(n : ℤ) else (n : ℤ)

/-- Models Python's `float(s)` on plain decimal strings, exactly in `ℚ`. -/
def pyFloat? (s : List Char) : Option ℚ :=
  let (neg, cs) := splitSign s
  let val? : Option ℚ :=
    match splitOnChar '.' cs with
    | [intPart] => (digitsNat? intPart).map fun n => (n : ℚ)
    | [intPart, fracPart] =>
        if (intPart ≠ [] ∨ fracPart ≠ []) ∧
            (∀ c ∈ intPart, c.isDigit) ∧ (∀ c ∈ fracPart, c.isDigit) then
          some ((digitsVal intPart : ℚ) + (digitsVal fracPart : ℚ) / (10 : ℚ) ^ fracPart.length)
        else none
    | _ => none
  val?.map fun v => if neg then -v else v

/-- The body of `parse_timestamp` before the enclosing `try`/`except`:
`none` models a raised exception. -/
def parse_timestamp_core (timestamp : String) : Option ℚ :=
  match splitOnChar ':' timestamp.data with
  | [minutes, seconds] => do
      let minutes_int ← pyInt? minutes
      let seconds_float ← pyFloat? seconds
      let seconds_float := if 60 ≤ seconds_float then (59999 : ℚ) / 1000 else seconds_float
      pure (minutes_int * 60 + seconds_float)
  | [hours, minutes, seconds] => do
      let hours_int ← pyInt? hours
      let minutes_int ← pyInt? minutes
      let seconds_float ← pyFloat? seconds
      let minutes_int := if 60 ≤ minutes_int then 59 else minutes_int
      let seconds_float := if 60 ≤ seconds_float then (59999 : ℚ) / 1000 else seconds_float
      pure (hours_int * 3600 + minutes_int * 60 + seconds_float)
  | _ => pyFloat? timestamp.data

/-- Models `video_utils.parse_timestamp`: total, with the `except` branch
returning `0.0`. -/
def parse_timestamp (timestamp : String) : ℚ :=
  (parse_timestamp_core timestamp).getD 0

/-- C4: the timestamp parser is total — in the source every raising
branch is wrapped by the `try`/`except` that yields `0.0`, so any string
the body cannot parse (modelled by `parse_timestamp_core _ = none`)
yields `0.0` instead of a propagated exception — and out-of-range
fragments are clamped rather than rejected: `parse_timestamp "75:61"`
returns `75*60 + 59.999` and `parse_timestamp "01:75:10"` clamps the
minutes field to 59, returning `1*3600 + 59*60 + 10`. -/
theorem parse_timestamp_total_and_clamps :
    (∀ s : String, parse_timestamp_core s = none → parse_timestamp s = 0) ∧
    parse_timestamp "75:61" = 75 * 60 + (59999 : ℚ) / 1000 ∧
    parse_timestamp "01:75:10" = 1 * 3600 + 59 * 60 + 10 := by
  refine ⟨fun s h => ?_, ?_, ?_⟩
  · simp [parse_timestamp, h]
  · simp +decide [parse_timestamp, parse_timestamp_core, pyInt?, pyFloat?,
      splitOnChar, digitsNat?, digitsVal, digitVal, splitSign]
  · simp +decide [parse_timestamp, parse_timestamp_core, pyInt?, pyFloat?,
      splitOnChar, digitsNat?, digitsVal, digitVal, splitSign]

/-- Witness for `parse_timestamp_total_and_clamps` at the unparsable
string `"abc"`. -/
theorem parse_timestamp_total_and_clamps_witness :
    parse_timestamp_core "abc" = none ∧ parse_timestamp "abc" = 0 :=
  ⟨by simp +decide [parse_timestamp_core, pyFloat?, splitOnChar, digitsNat?, splitSign],
   parse_timestamp_total_and_clamps.1 "abc"
     (by simp +decide [parse_timestamp_core, pyFloat?, splitOnChar, digitsNat?, splitSign])⟩

/-! ### Stable sorting by a rational key

Python's `sorted(xs, key=...)` / `list.sort(key=...)` is a stable sort by
the key.  `List.insertionSort` with `fun a b => key a ≤ key b` is such a
stable sort; the lemmas below provide sortedness, permutation and the
stability property (filtering by any key value preserves the original
order). -/

section StableSort

variable {α : Type} (key : α → ℚ)

instance keyLE_total : IsTotal α (fun a b => key a ≤ key b) :=
  ⟨fun a b => le_total (key a) (key b)⟩

instance keyLE_trans : IsTrans α (fun a b => key a ≤ key b) :=
  ⟨fun _ _ _ hab hbc => le_trans hab hbc⟩

theorem filter_orderedInsert_key_eq (t : ℚ) (x : α) (hx : key x = t) :
    ∀ l : List α,
      (List.orderedInsert (fun a b => key a ≤ key b) x l).filter
          (fun e => decide (key e = t)) =
        x :: l.filter (fun e => decide (key e = t))
  | [] => by simp [hx]
  | y :: l => by
    rw [List.orderedInsert]
    by_cases h : key x ≤ key y
    · rw [if_pos h]
      simp [hx]
    · have hy : ¬ key y = t := by
        intro hyt; exact h (by rw [hx, ← hyt])
      rw [if_neg h]
      simp only [List.filter_cons, decide_eq_true_eq, hy, if_neg]
      rw [filter_orderedInsert_key_eq t x hx l]
      simp [hy]

theorem filter_orderedInsert_key_ne (t : ℚ) (x : α) (hx : ¬ key x = t) :
    ∀ l : List α,
      (List.orderedInsert (fun a b => key a ≤ key b) x l).filter
          (fun e => decide (key e = t)) =
        l.filter (fun e => decide (key e = t))
  | [] => by simp [hx]
  | y :: l => by
    rw [List.orderedInsert]
    by_cases h : key x ≤ key y
    · rw [if_pos h]
      simp [hx]
    · rw [if_neg h]
      simp only [List.filter_cons]
      rw [filter_orderedInsert_key_ne t x hx l]

/-- Stability of the modelled Python sort: filtering the sorted list by
any key value gives exactly the matching elements in their original
order. -/
theorem filter_insertionSort_key (t : ℚ) :
    ∀ l : List α,
      (List.insertionSort (fun a b => key a ≤ key b) l).filter
          (fun e => decide (key e = t)) =
        l.filter (fun e => decide (key e = t))
  | [] => rfl
  | x :: l => by
    rw [List.insertionSort]
    by_cases hx : key x = t
    · rw [filter_orderedInsert_key_eq key t x hx, filter_insertionSort_key t l]
      simp [hx]
    · rw [filter_orderedInsert_key_ne key t x hx, filter_insertionSort_key t l]
      simp [hx]

end StableSort

/-! ### The transcript validator (`transcript_validator.py`)

The validator first converts each `CleanTranscriptEntry`'s time strings
to seconds (`_parse_transcript_entries` / `_time_string_to_seconds`);
the rules below operate on the resulting per-entry records.  The
embedding takes the parsed entries as input, so every theorem quantifies
over all possible parse outcomes.  Issue `description` strings and the
`entry_data` payloads (display-only) are not modelled. -/

/-- One parsed transcript entry as produced by `_parse_transcript_entries`:
the original entry's `type` and `text` together with the entry's position
`index` and its start/end in seconds. -/
structure ParsedEntry where
  index : ℕ
  type : String
  start_seconds : ℚ
  end_seconds : ℚ
  text : String
deriving DecidableEq, Repr

/-- Models `models.ValidationIssue` (sans the display-only fields). -/
structure ValidationIssue where
  issue_type : String
  severity : String
  start_time : ℚ
  end_time : ℚ
  entry_index : Option ℕ := none
  chunk_index : Option ℕ := none
deriving DecidableEq, Repr

/-- Python's `sorted(entries, key=lambda x: x['start_seconds'])`. -/
def sortByStart (entries : List ParsedEntry) : List ParsedEntry :=
  List.insertionSort (fun a b => a.start_seconds ≤ b.start_seconds) entries

/-- The adjacent-pair loop of `_check_chronological_order_within_type`. -/
def chronological_pairs : List ParsedEntry → List ValidationIssue
  | prev :: curr :: rest =>
      (if curr.start_seconds < prev.end_seconds ∧
          curr.start_seconds < prev.start_seconds then
        [{ issue_type := "chronological_order", severity := "error",
           start_time := curr.start_seconds, end_time := curr.end_seconds,
           entry_index := some curr.index }]
      else []) ++ chronological_pairs (curr :: rest)
  | _ => []

/-- Models `_check_chronological_order_within_type`: the entries of one
type group are sorted by start time before adjacent pairs are compared.
The `entry_type` argument only feeds the description string. -/
def check_chronological_order_within_type (entries : List ParsedEntry)
    (_entry_type : String) : List ValidationIssue :=
  if entries.length < 2 then []
  else chronological_pairs (sortByStart entries)

/-- Models `_check_chronological_order`: group by `type`, check each
group separately. -/
def check_chronological_order (entries : List ParsedEntry) : List ValidationIssue :=
  let event_entries := entries.filter (fun e => e.type == "event")
  let utterance_entries := entries.filter (fun e => e.type == "utterance")
  check_chronological_order_within_type event_entries "event" ++
    check_chronological_order_within_type utterance_entries "utterance"

/-- The between-entries loop of `_check_gaps`. -/
def gap_pairs (threshold : ℚ) : List ParsedEntry → List ValidationIssue
  | prev :: curr :: rest =>
      (if curr.start_seconds - prev.end_seconds > threshold then
        [{ issue_type := "gap", severity := "warning",
           start_time := prev.end_seconds, end_time := curr.start_seconds,
           entry_index := some curr.index }]
      else []) ++ gap_pairs threshold (curr :: rest)
  | _ => []

/-- Models `_check_gaps`: note that (unlike the chronological-order and
overlap rules) the source runs this over the WHOLE entry list, without
partitioning by `type`. -/
def check_gaps (entries : List ParsedEntry) (total_duration threshold : ℚ) :
    List ValidationIssue :=
  if entries.isEmpty then []
  else
    let sorted_entries := sortByStart entries
    let begin_issues :=
      match sorted_entries.head? with
      | some first =>
          if first.start_seconds > threshold then
            [{ issue_type := "gap", severity := "warning", start_time := 0,
               end_time := first.start_seconds, entry_index := some 0 }]
          else []
      | none => []
    let end_issues :=
      match sorted_entries.getLast? with
      | some last =>
          if total_duration - last.end_seconds > threshold then
            [{ issue_type := "gap", severity := "warning",
               start_time := last.end_seconds, end_time := total_duration,
               entry_index := some (entries.length - 1) }]
          else []
      | none => []
    begin_issues ++ gap_pairs threshold sorted_entries ++ end_issues

/-- The adjacent-pair loop of `_check_overlaps_within_type`. -/
def overlap_pairs : List ParsedEntry → List ValidationIssue
  | prev :: curr :: rest =>
      (if curr.start_seconds < prev.end_seconds then
        [{ issue_type := "overlap", severity := "warning",
           start_time := curr.start_seconds, end_time := prev.end_seconds,
           entry_index := some curr.index }]
      else []) ++ overlap_pairs (curr :: rest)
  | _ => []

/-- Models `_check_overlaps_within_type`. -/
def check_overlaps_within_type (entries : List ParsedEntry)
    (_entry_type : String) : List ValidationIssue :=
  if entries.length < 2 then []
  else overlap_pairs (sortByStart entries)

/-- Models `_check_overlaps`: group by `type`, check each group. -/
def check_overlaps (entries : List ParsedEntry) : List ValidationIssue :=
  let event_entries := entries.filter (fun e => e.type == "event")
  let utterance_entries := entries.filter (fun e => e.type == "utterance")
  check_overlaps_within_type event_entries "event" ++
    check_overlaps_within_type utterance_entries "utterance"

/-- The failure-indicator substrings of `_indicates_chunk_failure`. -/
def error_indicators : List String :=
  ["error processing", "failed to process", "api error", "network error",
   "timeout", "service unavailable", "processing failed", "chunk failed",
   "transcription error", "analysis failed"]

/-- Python's `str.lower()` (ASCII behaviour). -/
def pyLower (s : String) : String := String.mk (s.data.map Char.toLower)

/-- Models `_indicates_chunk_failure`. -/
def indicates_chunk_failure (e : ParsedEntry) : Bool :=
  if e.text.trim = "" then false
  else
    let text_lower := (pyLower e.text).trim
    error_indicators.any fun ind => decide (ind.data <:+: text_lower.data)

/-- Models `_check_failed_chunks` (the per-entry error-substring scan). -/
def check_failed_chunks (entries : List ParsedEntry) : List ValidationIssue :=
  entries.flatMap fun e =>
    if indicates_chunk_failure e then
      [{ issue_type := "failed_chunk", severity := "error",
         start_time := e.start_seconds, end_time := e.end_seconds,
         entry_index := some e.index }]
    else []

/-- Models `models.ValidationResults` (sans `video_id`/`validation_date`). -/
structure ValidationResults where
  total_entries : ℕ
  total_duration_seconds : ℚ
  issues : List ValidationIssue
  chronological_order_valid : Bool
  gap_threshold_seconds : ℚ
  gaps_found : ℕ
  failed_chunks : List ℕ
  overlaps_found : ℕ
  validation_passed : Bool
deriving DecidableEq, Repr

/-- Default `gap_threshold_seconds` of `TranscriptValidator.__init__`. -/
def gap_threshold_default : ℚ := 10

/-- Models `TranscriptValidator.validate_transcript_object` on the parsed
entries of a transcript. -/
def validate_transcript_object (entries : List ParsedEntry)
    (duration_seconds gap_threshold_seconds : ℚ) : ValidationResults :=
  let issues :=
    check_chronological_order entries ++
      check_gaps entries duration_seconds gap_threshold_seconds ++
      check_overlaps entries ++ check_failed_chunks entries
  let error_count := (issues.filter (fun i => i.severity == "error")).length
  { total_entries := entries.length
    total_duration_seconds := duration_seconds
    issues := issues
    chronological_order_valid :=
      (issues.filter (fun i => i.issue_type == "chronological_order")).length == 0
    gap_threshold_seconds := gap_threshold_seconds
    gaps_found := (issues.filter (fun i => i.issue_type == "gap")).length
    failed_chunks := issues.filterMap fun i =>
      if i.issue_type == "failed_chunk" then i.chunk_index else none
    overlaps_found := (issues.filter (fun i => i.issue_type == "overlap")).length
    validation_passed := error_count == 0 }

/-! ### Rule A: the chronological-order check -/

theorem chronological_pairs_of_chain :
    ∀ l : List ParsedEntry,
      l.Chain' (fun a b => a.start_seconds ≤ b.start_seconds) →
      chronological_pairs l = []
  | [] => fun _ => rfl
  | [_] => fun _ => rfl
  | x :: y :: rest => fun h => by
    rcases List.chain'_cons.mp h with ⟨hxy, htail⟩
    rw [chronological_pairs]
    have hcond : ¬ (y.start_seconds < x.end_seconds ∧
        y.start_seconds < x.start_seconds) := by
      rintro ⟨_, hlt⟩; exact absurd hxy (not_le.mpr hlt)
    rw [if_neg hcond, List.nil_append]
    exact chronological_pairs_of_chain (y :: rest) htail

theorem check_chronological_order_within_type_eq_nil
    (entries : List ParsedEntry) (entry_type : String) :
    check_chronological_order_within_type entries entry_type = [] := by
  unfold check_chronological_order_within_type
  split
  · rfl
  · exact chronological_pairs_of_chain _
      (List.Pairwise.chain' (List.sorted_insertionSort _ entries))

theorem check_chronological_order_eq_nil (entries : List ParsedEntry) :
    check_chronological_order entries = [] := by
  simp [check_chronological_order, check_chronological_order_within_type_eq_nil]

theorem mem_gap_pairs (threshold : ℚ) :
    ∀ l : List ParsedEntry, ∀ i ∈ gap_pairs threshold l,
      i.issue_type = "gap" ∧ i.severity = "warning"
  | [] => by simp [gap_pairs]
  | [_] => by simp [gap_pairs]
  | x :: y :: rest => by
    rw [gap_pairs]
    intro i hi
    rcases List.mem_append.mp hi with hi | hi
    · split at hi
      · rcases List.mem_singleton.mp hi with rfl
        exact ⟨rfl, rfl⟩
      · cases hi
    · exact mem_gap_pairs threshold (y :: rest) i hi

theorem mem_check_gaps (entries : List ParsedEntry) (total_duration threshold : ℚ) :
    ∀ i ∈ check_gaps entries total_duration threshold,
      i.issue_type = "gap" ∧ i.severity = "warning" := by
  unfold check_gaps
  split
  · simp
  · intro i hi
    simp only [List.mem_append] at hi
    rcases hi with (hi | hi) | hi
    · split at hi <;> first
        | (split at hi
           · rcases List.mem_singleton.mp hi with rfl; exact ⟨rfl, rfl⟩
           · cases hi)
        | cases hi
    · exact mem_gap_pairs threshold _ i hi
    · split at hi <;> first
        | (split at hi
           · rcases List.mem_singleton.mp hi with rfl; exact ⟨rfl, rfl⟩
           · cases hi)
        | cases hi

theorem mem_overlap_pairs :
    ∀ l : List ParsedEntry, ∀ i ∈ overlap_pairs l,
      i.issue_type = "overlap" ∧ i.severity = "warning"
  | [] => by simp [overlap_pairs]
  | [_] => by simp [overlap_pairs]
  | x :: y :: rest => by
    rw [overlap_pairs]
    intro i hi
    rcases List.mem_append.mp hi with hi | hi
    · split at hi
      · rcases List.mem_singleton.mp hi with rfl
        exact ⟨rfl, rfl⟩
      · cases hi
    · exact mem_overlap_pairs (y :: rest) i hi

theorem mem_check_overlaps (entries : List ParsedEntry) :
    ∀ i ∈ check_overlaps entries,
      i.issue_type = "overlap" ∧ i.severity = "warning" := by
  unfold check_overlaps check_overlaps_within_type
  intro i hi
  rcases List.mem_append.mp hi with hi | hi <;>
    [skip; skip] <;>
    · split at hi
      · cases hi
      · exact mem_overlap_pairs _ i hi

theorem mem_check_failed_chunks (entries : List ParsedEntry) :
    ∀ i ∈ check_failed_chunks entries,
      i.issue_type = "failed_chunk" ∧ i.severity = "error" := by
  unfold check_failed_chunks
  intro i hi
  rcases List.mem_flatMap.mp hi with ⟨e, _, hie⟩
  split at hie
  · rcases List.mem_singleton.mp hie with rfl
    exact ⟨rfl, rfl⟩
  · cases hie

/-- C10: the chronological-order rule never fires.  Because each type
group is sorted by start time before adjacent entries are compared, the
inversion branch is unreachable, so for every parsed transcript the
rule's issue list is empty, the report carries no
`chronological_order` issue, and `chronological_order_valid` is `true`. -/
theorem chronological_rule_vacuous (entries : List ParsedEntry)
    (duration_seconds gap_threshold_seconds : ℚ) :
    check_chronological_order entries = [] ∧
    ((validate_transcript_object entries duration_seconds
        gap_threshold_seconds).issues.filter
      (fun i => i.issue_type == "chronological_order")) = [] ∧
    (validate_transcript_object entries duration_seconds
        gap_threshold_seconds).chronological_order_valid = true := by
  have hchron := check_chronological_order_eq_nil entries
  have h1 : (check_gaps entries duration_seconds gap_threshold_seconds).filter
      (fun i => i.issue_type == "chronological_order") = [] := by
    rw [List.filter_eq_nil_iff]
    intro i hi
    simp [(mem_check_gaps entries duration_seconds gap_threshold_seconds i hi).1]
  have h2 : (check_overlaps entries).filter
      (fun i => i.issue_type == "chronological_order") = [] := by
    rw [List.filter_eq_nil_iff]
    intro i hi
    simp [(mem_check_overlaps entries i hi).1]
  have h3 : (check_failed_chunks entries).filter
      (fun i => i.issue_type == "chronological_order") = [] := by
    rw [List.filter_eq_nil_iff]
    intro i hi
    simp [(mem_check_failed_chunks entries i hi).1]
  have hfilter :
      ((validate_transcript_object entries duration_seconds
          gap_threshold_seconds).issues.filter
        (fun i => i.issue_type == "chronological_order")) = [] := by
    show ((check_chronological_order entries ++ _ ++ _ ++ _).filter _) = []
    rw [hchron, List.nil_append, List.filter_append, List.filter_append, h1, h2, h3]
    rfl
  have hvalid : (validate_transcript_object entries duration_seconds
        gap_threshold_seconds).chronological_order_valid =
      (((validate_transcript_object entries duration_seconds
          gap_threshold_seconds).issues.filter
        (fun i => i.issue_type == "chronological_order")).length == 0) := rfl
  refine ⟨hchron, hfilter, ?_⟩
  rw [hvalid, hfilter]
  rfl

/-- Modelled from the spec: Rule A's intended contract — walk the
adjacent pairs of a type group in the group's ORIGINAL emission order
(no pre-sort) and flag each pair whose later-emitted entry starts
strictly before the earlier-emitted entry's start. -/
def rule_a_intended_pairs : List ParsedEntry → List ValidationIssue
  | earlier :: later :: rest =>
      (if later.start_seconds < earlier.start_seconds then
        [{ issue_type := "chronological_order", severity := "error",
           start_time := later.start_seconds, end_time := later.end_seconds,
           entry_index := some later.index }]
      else []) ++ rule_a_intended_pairs (later :: rest)
  | _ => []

/-- C1: the implemented Rule A misses a genuine producer-side inversion.
For two same-type entries emitted in the order start 10 then start 5 the
intended contract reports one error-severity inversion, but
`_check_chronological_order_within_type` sorts the group by start time
first, which makes its `curr.start < prev.start` branch unreachable: the
implementation reports nothing. -/
theorem rule_a_misses_inversion :
    check_chronological_order_within_type
        [⟨0, "utterance", 10, 11, "hello"⟩, ⟨1, "utterance", 5, 6, "world"⟩]
        "utterance" = [] ∧
    (rule_a_intended_pairs
        [⟨0, "utterance", 10, 11, "hello"⟩, ⟨1, "utterance", 5, 6, "world"⟩]).length
      = 1 := by
  constructor
  · simp +decide [check_chronological_order_within_type, sortByStart,
      chronological_pairs, List.insertionSort, List.orderedInsert]
  · simp +decide [rule_a_intended_pairs]

/-! ### Rule B: the coverage-gap check -/

/-- Modelled from the spec: the claimed per-type gap rule — gap detection
run separately on the `event` group and on the `utterance` group, each
group checked with the same first/between/end threshold conditions. -/
def check_gaps_per_type_spec (entries : List ParsedEntry)
    (total_duration threshold : ℚ) : List ValidationIssue :=
  check_gaps (entries.filter (fun e => e.type == "event")) total_duration threshold ++
    check_gaps (entries.filter (fun e => e.type == "utterance")) total_duration threshold

/-- C6 counterexample: the implemented gap rule is NOT per-type.  With an
event on `[0,5]` and an utterance on `[5,30]`, total duration 30 and
threshold 10, the per-type rule claimed by the spec reports one gap
(25 s uncovered by events), but `_check_gaps` sorts ALL entries together
regardless of type and reports nothing. -/
theorem gap_rule_not_per_type :
    check_gaps [⟨0, "event", 0, 5, "a"⟩, ⟨1, "utterance", 5, 30, "b"⟩] 30 10 = [] ∧
    (check_gaps_per_type_spec
        [⟨0, "event", 0, 5, "a"⟩, ⟨1, "utterance", 5, 30, "b"⟩] 30 10).length = 1 := by
  constructor
  · norm_num [check_gaps, sortByStart, gap_pairs,
      List.insertionSort, List.orderedInsert]
  · norm_num [check_gaps_per_type_spec, check_gaps, sortByStart, gap_pairs,
      List.insertionSort, List.orderedInsert]

/-- Modelled from the spec (as amended): the gap conditions of Rule B
over one start-sorted sequence, written over consecutive index pairs. -/
def gap_rule_single_sequence_spec (entries : List ParsedEntry)
    (total_duration threshold : ℚ) : List ValidationIssue :=
  if entries.isEmpty then []
  else
    let s := sortByStart entries
    (match s.head? with
      | some first =>
          if first.start_seconds > threshold then
            [{ issue_type := "gap", severity := "warning", start_time := 0,
               end_time := first.start_seconds, entry_index := some 0 }]
          else []
      | none => []) ++
    ((s.zip s.tail).filterMap fun pc =>
      if pc.2.start_seconds - pc.1.end_seconds > threshold then
        some { issue_type := "gap", severity := "warning",
               start_time := pc.1.end_seconds, end_time := pc.2.start_seconds,
               entry_index := some pc.2.index }
      else none) ++
    (match s.getLast? with
      | some last =>
          if total_duration - last.end_seconds > threshold then
            [{ issue_type := "gap", severity := "warning",
               start_time := last.end_seconds, end_time := total_duration,
               entry_index := some (entries.length - 1) }]
          else []
      | none => [])

theorem gap_pairs_eq_zip (threshold : ℚ) :
    ∀ l : List ParsedEntry,
      gap_pairs threshold l = (l.zip l.tail).filterMap fun pc =>
        if pc.2.start_seconds - pc.1.end_seconds > threshold then
          some { issue_type := "gap", severity := "warning",
                 start_time := pc.1.end_seconds, end_time := pc.2.start_seconds,
                 entry_index := some pc.2.index }
        else none
  | [] => rfl
  | [_] => rfl
  | x :: y :: rest => by
    rw [gap_pairs]
    show _ = List.filterMap _ ((x, y) :: (y :: rest).zip rest)
    rw [List.filterMap_cons, gap_pairs_eq_zip threshold (y :: rest)]
    show _ = _
    split <;> simp

/-- C6 (amended): gap detection operates on the WHOLE entry list, not on
per-type groups: the full list is sorted by start, and a warning is
reported when the first entry starts later than the threshold, for each
consecutive pair with `next.start − prev.end > threshold`, and when
`total_duration − last.end > threshold`; the validator's default
threshold is 10 seconds. -/
theorem gap_rule_over_all_entries (entries : List ParsedEntry)
    (total_duration threshold : ℚ) :
    check_gaps entries total_duration threshold =
      gap_rule_single_sequence_spec entries total_duration threshold ∧
    gap_threshold_default = 10 := by
  refine ⟨?_, rfl⟩
  simp only [check_gaps, gap_rule_single_sequence_spec, gap_pairs_eq_zip]

/-! ### Pipeline-level failed-chunk validation

Models the chunk-result dictionaries produced by
`transcript_analyzer.analyze_all_chunks_parallel` and consumed by
`_check_pipeline_failed_chunks` / `validate_pipeline_results` and by
`transcript_combiner.create_full_transcript`. -/

/-- One raw transcript-entry dictionary from a service response, before
or after `_process_transcript_entry`.  Every field models a key that may
be absent (`Option`). -/
structure ChunkEntry where
  type : Option String := none
  start_time : Option String := none
  end_time : Option String := none
  time : Option String := none
  speaker : Option String := none
  spoken_text : Option String := none
  event_description : Option String := none
  visual_description : Option String := none
  absolute_start_time : Option ℚ := none
  absolute_end_time : Option ℚ := none
  absolute_start_timestamp : Option String := none
  absolute_end_timestamp : Option String := none
  absolute_time : Option ℚ := none
  absolute_timestamp : Option String := none
deriving DecidableEq, Repr

/-- The per-chunk result dictionary (the `transcript` value inside a
chunk record): its `transcript` entry list and `error` message when the
corresponding keys are present, plus a count of any other keys, which
only feeds Python's `len(result)` / emptiness checks. -/
structure ChunkTranscript where
  transcript : Option (List ChunkEntry) := none
  error : Option String := none
  extra_keys : ℕ := 0
deriving DecidableEq, Repr

/-- Number of keys of the modelled dictionary (Python `len(result)`). -/
def ChunkTranscript.size (t : ChunkTranscript) : ℕ :=
  (if t.transcript.isSome then 1 else 0) + (if t.error.isSome then 1 else 0) +
    t.extra_keys

/-- The `chunk_info` dictionary fields read by the validator/combiner. -/
structure ChunkInfo where
  start_time : Option ℚ := none
  end_time : Option ℚ := none
deriving DecidableEq, Repr

/-- One element of `transcript_analysis['chunks']`. -/
structure PipelineChunk where
  chunk_info : ChunkInfo := {}
  transcript : ChunkTranscript := {}
  success : Option Bool := none
deriving DecidableEq, Repr

/-- Python truthiness of `d.get('error')` for a string-valued key. -/
def truthy_str : Option String → Bool
  | none => false
  | some s => !(s == "")

/-- The enumerated loop of `_check_pipeline_failed_chunks`, starting at
chunk index `i`. -/
def check_pipeline_failed_chunks_from (i : ℕ) :
    List PipelineChunk → List ValidationIssue
  | [] => []
  | c :: rest =>
    let start_time := c.chunk_info.start_time.getD 0
    let end_time := c.chunk_info.end_time.getD (start_time + 1)
    let issues :=
      if c.success.getD true = false then
        [{ issue_type := "failed_chunk", severity := "error",
           start_time := start_time, end_time := end_time,
           chunk_index := some i }]
      else if truthy_str c.transcript.error then
        [{ issue_type := "failed_chunk", severity := "error",
           start_time := start_time, end_time := end_time,
           chunk_index := some i }]
      else if c.transcript.size = 0 then
        [{ issue_type := "failed_chunk", severity := "warning",
           start_time := start_time, end_time := end_time,
           chunk_index := some i }]
      else []
    issues ++ check_pipeline_failed_chunks_from (i + 1) rest

/-- Models `_check_pipeline_failed_chunks`. -/
def check_pipeline_failed_chunks (chunks : List PipelineChunk) :
    List ValidationIssue :=
  check_pipeline_failed_chunks_from 0 chunks

/-- The parts of the `pipeline_results` dictionary that
`validate_pipeline_results` reads: the chunk records and, when a
non-empty `full_transcript` is present, its parsed entries and duration. -/
structure PipelineResultsInput where
  chunks : List PipelineChunk
  full_transcript : Option (List ParsedEntry × ℚ)

/-- Models `TranscriptValidator.validate_pipeline_results`. -/
def validate_pipeline_results (pr : PipelineResultsInput)
    (gap_threshold_seconds : ℚ) : ValidationResults :=
  let failed_chunk_issues := check_pipeline_failed_chunks pr.chunks
  match pr.full_transcript with
  | some (entries, duration) =>
      let standard_results :=
        validate_transcript_object entries duration gap_threshold_seconds
      { total_entries := standard_results.total_entries
        total_duration_seconds := standard_results.total_duration_seconds
        issues := standard_results.issues ++ failed_chunk_issues
        chronological_order_valid := standard_results.chronological_order_valid
        gap_threshold_seconds := gap_threshold_seconds
        gaps_found := standard_results.gaps_found
        failed_chunks := failed_chunk_issues.filterMap fun i => i.chunk_index
        overlaps_found := standard_results.overlaps_found
        validation_passed := standard_results.validation_passed &&
          (failed_chunk_issues.length == 0) }
  | none =>
      { total_entries := 0
        total_duration_seconds := 0
        issues := failed_chunk_issues
        chronological_order_valid := true
        gap_threshold_seconds := gap_threshold_seconds
        gaps_found := 0
        failed_chunks := failed_chunk_issues.filterMap fun i => i.chunk_index
        overlaps_found := 0
        validation_passed := failed_chunk_issues.length == 0 }

theorem passed_beq_iff (issues : List ValidationIssue) :
    (((issues.filter (fun i => i.severity == "error")).length == 0) = true) ↔
      ∀ i ∈ issues, i.severity ≠ "error" := by
  rw [beq_iff_eq, List.length_eq_zero, List.filter_eq_nil_iff]
  simp

theorem validate_transcript_object_passed_iff (entries : List ParsedEntry)
    (duration_seconds gap_threshold_seconds : ℚ) :
    ((validate_transcript_object entries duration_seconds
        gap_threshold_seconds).validation_passed = true) ↔
      ∀ i ∈ (validate_transcript_object entries duration_seconds
        gap_threshold_seconds).issues, i.severity ≠ "error" :=
  passed_beq_iff _

/-- C5 counterexample: a pipeline run whose only issue is a
warning-severity pipeline failed-chunk issue (a chunk record whose
`transcript` dictionary is empty) still gets `validation_passed = false`,
so `validation_passed` is not equivalent to "no error-severity issue". -/
theorem passed_false_without_error_issue :
    ((validate_pipeline_results { chunks := [{}], full_transcript := some ([], 0) }
        10).validation_passed = false) ∧
    (∀ i ∈ (validate_pipeline_results
        { chunks := [{}], full_transcript := some ([], 0) } 10).issues,
      i.severity = "warning") := by
  constructor
  · rfl
  · intro i hi
    have : i = { issue_type := "failed_chunk", severity := "warning"
                 start_time := 0, end_time := 1, chunk_index := some 0 } := by
      simpa [validate_pipeline_results, check_pipeline_failed_chunks,
        check_pipeline_failed_chunks_from, validate_transcript_object,
        check_chronological_order, check_chronological_order_within_type,
        check_gaps, check_overlaps, check_overlaps_within_type,
        check_failed_chunks, truthy_str, ChunkTranscript.size] using hi
    rw [this]

/-- C5 (amended): `validation_passed` is true iff the issue list contains
no error-severity issue AND — in `validate_pipeline_results` — the
pipeline failed-chunk scan produced no issue at all; since that scan can
emit warning-severity issues (chunks with no transcript data), a warning
can make `validation_passed` false there.  For
`validate_transcript_object` alone the claimed equivalence does hold. -/
theorem validation_passed_characterization :
    (∀ (entries : List ParsedEntry) (duration_seconds gap_threshold_seconds : ℚ),
      ((validate_transcript_object entries duration_seconds
          gap_threshold_seconds).validation_passed = true) ↔
        ∀ i ∈ (validate_transcript_object entries duration_seconds
          gap_threshold_seconds).issues, i.severity ≠ "error") ∧
    (∀ (pr : PipelineResultsInput) (gap_threshold_seconds : ℚ),
      ((validate_pipeline_results pr gap_threshold_seconds).validation_passed = true) ↔
        ((∀ i ∈ (validate_pipeline_results pr gap_threshold_seconds).issues,
            i.severity ≠ "error") ∧
          check_pipeline_failed_chunks pr.chunks = [])) := by
  refine ⟨fun entries d g => validate_transcript_object_passed_iff entries d g, ?_⟩
  intro pr g
  obtain ⟨chunks, ft⟩ := pr
  rcases ft with _ | ⟨entries, duration⟩
  · show ((check_pipeline_failed_chunks chunks).length == 0) = true ↔ _
    rw [beq_iff_eq, List.length_eq_zero]
    constructor
    · intro h
      refine ⟨?_, h⟩
      intro i hi
      rw [show (validate_pipeline_results ⟨chunks, none⟩ g).issues =
          check_pipeline_failed_chunks chunks from rfl, h] at hi
      cases hi
    · exact fun h => h.2
  · show ((validate_transcript_object entries duration g).validation_passed &&
        ((check_pipeline_failed_chunks chunks).length == 0)) = true ↔ _
    rw [Bool.and_eq_true, beq_iff_eq, List.length_eq_zero,
      validate_transcript_object_passed_iff]
    have hiss : (validate_pipeline_results ⟨chunks, some (entries, duration)⟩ g).issues =
        (validate_transcript_object entries duration g).issues ++
          check_pipeline_failed_chunks chunks := rfl
    constructor
    · rintro ⟨hstd, hnil⟩
      refine ⟨?_, hnil⟩
      intro i hi
      rw [hiss, hnil, List.append_nil] at hi
      exact hstd i hi
    · rintro ⟨hall, hnil⟩
      refine ⟨?_, hnil⟩
      intro i hi
      exact hall i (by rw [hiss]; exact List.mem_append_left _ hi)

/-! ### Timestamp formatting (`video_utils.format_timestamp`) -/

/-- Python's float `%` for a positive divisor (result in `[0, b)`). -/
def pymod (a b : ℚ) : ℚ := a - b * ⌊a / b⌋

/-- Pads to two digits, as the f-string `{n:02d}` on a natural number. -/
def pad2 (n : ℕ) : String :=
  if n < 10 then "0" ++ natToString n else natToString n

/-- Pads to three digits, as the f-string `{n:03d}` on a natural number. -/
def pad3 (n : ℕ) : String :=
  if n < 10 then "00" ++ natToString n
  else if n < 100 then "0" ++ natToString n else natToString n

/-- Models `video_utils.format_timestamp` (all timestamps in the pipeline
are non-negative, so Python's `int()` truncation and `//` agree with the
floor/`toNat` used here). -/
def format_timestamp (seconds : ℚ) : String :=
  let hours := (⌊seconds / 3600⌋).toNat
  let minutes := (⌊pymod seconds 3600 / 60⌋).toNat
  let secs := (⌊pymod seconds 60⌋).toNat
  let milliseconds := (⌊pymod seconds 1 * 1000⌋).toNat
  if 0 < hours then
    pad2 hours ++ ":" ++ pad2 minutes ++ ":" ++ pad2 secs ++ "." ++ pad3 milliseconds
  else
    pad2 minutes ++ ":" ++ pad2 secs ++ "." ++ pad3 milliseconds

/-! ### The Merger (`transcript_combiner.create_full_transcript`) -/

/-- One entry of the merged full transcript, with the fields
`create_full_transcript` writes. -/
structure FullEntry where
  time : String
  type : String
  speaker : String
  spoken_text : String
  event_description : String
  visual_description : String
  absolute_time : ℚ
  absolute_start_timestamp : String
  absolute_end_timestamp : String
deriving DecidableEq, Repr

/-- The per-entry body of the collection loop of
`create_full_transcript`: the new format uses the precomputed absolute
start/end, the legacy fallback parses `time` and produces a zero-width
interval at `chunk_start_time + time`. -/
def entry_to_full (chunk_start_time : ℚ) (e : ChunkEntry) : FullEntry :=
  match e.absolute_start_time, e.absolute_end_time with
  | some s, some en =>
      let st := e.absolute_start_timestamp.getD (format_timestamp s)
      let et := e.absolute_end_timestamp.getD (format_timestamp en)
      { time := st, type := e.type.getD "utterance",
        speaker := e.speaker.getD "", spoken_text := e.spoken_text.getD "",
        event_description := e.event_description.getD "",
        visual_description := e.visual_description.getD "",
        absolute_time := s, absolute_start_timestamp := st,
        absolute_end_timestamp := et }
  | _, _ =>
      let entry_time := parse_timestamp (e.time.getD "00:00")
      let s := chunk_start_time + entry_time
      let st := format_timestamp s
      { time := st, type := e.type.getD "utterance",
        speaker := e.speaker.getD "", spoken_text := e.spoken_text.getD "",
        event_description := e.event_description.getD "",
        visual_description := e.visual_description.getD "",
        absolute_time := s, absolute_start_timestamp := st,
        absolute_end_timestamp := st }

/-- Full-transcript entries contributed by one chunk record:
`chunk_data.get('transcript', {}).get('transcript', [])` mapped through
the entry conversion at `chunk_info.get('start_time', 0)`. -/
def chunk_full_entries (c : PipelineChunk) : List FullEntry :=
  (c.transcript.transcript.getD []).map
    (entry_to_full (c.chunk_info.start_time.getD 0))

/-- The claim-relevant parts of the persisted full-transcript structure:
`metadata.total_entries`, `metadata.total_duration_seconds` and the
sorted entry list. -/
structure FullTranscript where
  total_entries : ℕ
  total_duration_seconds : ℚ
  transcript : List FullEntry
deriving DecidableEq, Repr

/-- Python's `max(entry['absolute_time'] for entry in all_entries) if
all_entries else 0`. -/
def max_absolute_time : List FullEntry → ℚ
  | [] => 0
  | e :: rest => rest.foldl (fun a x => max a x.absolute_time) e.absolute_time

/-- Models `TranscriptCombiner.create_full_transcript`: flatten all
chunk entry lists in chunk order, then stable-sort by `absolute_time`. -/
def create_full_transcript (chunks : List PipelineChunk) : FullTranscript :=
  let all_entries := chunks.flatMap chunk_full_entries
  let sorted := List.insertionSort
    (fun a b => a.absolute_time ≤ b.absolute_time) all_entries
  { total_entries := sorted.length
    total_duration_seconds := max_absolute_time sorted
    transcript := sorted }

theorem le_foldl_max (l : List ℚ) : ∀ init : ℚ, init ≤ l.foldl max init := by
  induction l with
  | nil => intro init; exact le_refl _
  | cons x l ih =>
      intro init
      exact le_trans (le_max_left init x) (ih (max init x))

theorem mem_le_foldl_max (l : List ℚ) :
    ∀ init : ℚ, ∀ q ∈ l, q ≤ l.foldl max init := by
  induction l with
  | nil => intro _ q hq; cases hq
  | cons x l ih =>
      intro init q hq
      rcases List.mem_cons.mp hq with rfl | hq
      · exact le_trans (le_max_right init q) (le_foldl_max l (max init q))
      · exact ih (max init x) q hq

theorem foldl_max_eq_init_or_mem (l : List ℚ) :
    ∀ init : ℚ, l.foldl max init = init ∨ l.foldl max init ∈ l := by
  induction l with
  | nil => intro init; exact Or.inl rfl
  | cons x l ih =>
      intro init
      rcases ih (max init x) with h | h
      · rcases max_choice init x with hm | hm
        · exact Or.inl (by rw [List.foldl_cons, h, hm])
        · exact Or.inr (by rw [List.foldl_cons, h, hm]; exact List.mem_cons_self x l)
      · exact Or.inr (List.mem_cons_of_mem x h)

theorem foldl_max_absolute_time (l : List FullEntry) (init : ℚ) :
    l.foldl (fun a x => max a x.absolute_time) init =
      (l.map FullEntry.absolute_time).foldl max init := by
  rw [List.foldl_map]

theorem max_absolute_time_spec (l : List FullEntry) :
    (l = [] → max_absolute_time l = 0) ∧
    (∀ e ∈ l, e.absolute_time ≤ max_absolute_time l) ∧
    (l ≠ [] → ∃ e ∈ l, e.absolute_time = max_absolute_time l) := by
  match l with
  | [] =>
    refine ⟨fun _ => rfl, ?_, ?_⟩ <;> simp
  | x :: rest =>
    refine ⟨?_, ?_, ?_⟩
    · intro h
      cases h
    · intro e he
      rw [show max_absolute_time (x :: rest) =
          (rest.map FullEntry.absolute_time).foldl max x.absolute_time from
          foldl_max_absolute_time rest x.absolute_time]
      rcases List.mem_cons.mp he with rfl | he
      · exact le_foldl_max _ _
      · exact mem_le_foldl_max _ _ _ (List.mem_map_of_mem FullEntry.absolute_time he)
    · intro hne
      rw [show max_absolute_time (x :: rest) =
          (rest.map FullEntry.absolute_time).foldl max x.absolute_time from
          foldl_max_absolute_time rest x.absolute_time]
      rcases foldl_max_eq_init_or_mem (rest.map FullEntry.absolute_time)
          x.absolute_time with h | h
      · exact ⟨x, List.mem_cons_self x rest, h.symm⟩
      · rcases List.mem_map.mp h with ⟨e, he, heq⟩
        exact ⟨e, List.mem_cons_of_mem x he, heq⟩

/-- A chunk entry with distinct absolute start and end times, exhibiting
that the merged metadata ignores the absolute end. -/
def startFiveEndTen : ChunkEntry :=
  { absolute_start_time := some 5, absolute_end_time := some 10 }

/-- A single successful chunk at offset `0` containing `startFiveEndTen`. -/
def chunkStartFiveEndTen : PipelineChunk :=
  { chunk_info := { start_time := some 0 }
    transcript := { transcript := some [startFiveEndTen] } }

/-- C2 counterexample: `total_duration_seconds` is computed from
`absolute_time` (the absolute START time), not from the absolute end.
One merged entry with `absolute_start_time = 5` and
`absolute_end_time = 10` yields `total_duration_seconds = 5`, not the
claimed maximum absolute end `10`. -/
theorem total_duration_ignores_absolute_end :
    (create_full_transcript [chunkStartFiveEndTen]).total_duration_seconds = 5 ∧
    (create_full_transcript [chunkStartFiveEndTen]).total_duration_seconds ≠ 10 := by
  have h5 : (create_full_transcript [chunkStartFiveEndTen]).total_duration_seconds = 5 := rfl
  refine ⟨h5, ?_⟩
  rw [h5]
  norm_num

/-- C2 (amended): the Merger's `total_duration_seconds` is the maximum
of `absolute_time` (the absolute START times) over all merged entries,
and `0` when the merged entry list is empty; it is not the maximum
absolute end. -/
theorem total_duration_is_max_start (chunks : List PipelineChunk) :
    ((create_full_transcript chunks).transcript = [] →
      (create_full_transcript chunks).total_duration_seconds = 0) ∧
    (∀ e ∈ (create_full_transcript chunks).transcript,
      e.absolute_time ≤ (create_full_transcript chunks).total_duration_seconds) ∧
    ((create_full_transcript chunks).transcript ≠ [] →
      ∃ e ∈ (create_full_transcript chunks).transcript,
        e.absolute_time = (create_full_transcript chunks).total_duration_seconds) := by
  have hdur : (create_full_transcript chunks).total_duration_seconds =
      max_absolute_time (create_full_transcript chunks).transcript := rfl
  rcases max_absolute_time_spec (create_full_transcript chunks).transcript with
    ⟨h0, hle, hmem⟩
  exact ⟨fun h => by rw [hdur]; exact h0 h,
    fun e he => by rw [hdur]; exact hle e he,
    fun h => by
      rcases hmem h with ⟨e, he, heq⟩
      exact ⟨e, he, by rw [hdur]; exact heq⟩⟩

/-- Witness for `total_duration_is_max_start`: a singleton merged
transcript attains its `total_duration_seconds` at its one entry. -/
theorem total_duration_is_max_start_witness :
    (create_full_transcript [chunkStartFiveEndTen]).transcript ≠ [] ∧
    ∃ e ∈ (create_full_transcript [chunkStartFiveEndTen]).transcript,
      e.absolute_time =
        (create_full_transcript [chunkStartFiveEndTen]).total_duration_seconds :=
  ⟨by simp [create_full_transcript, chunk_full_entries, entry_to_full,
      chunkStartFiveEndTen, startFiveEndTen, List.insertionSort, List.orderedInsert],
   (total_duration_is_max_start [chunkStartFiveEndTen]).2.2
     (by simp [create_full_transcript, chunk_full_entries, entry_to_full,
       chunkStartFiveEndTen, startFiveEndTen, List.insertionSort, List.orderedInsert])⟩

/-- C9: merge stability.  The merged transcript is a permutation of the
concatenation of the per-chunk entry lists (chunks in segment order,
entries in emission order, failed chunks contributing their empty
lists), it is sorted by non-decreasing `absolute_time`, and filtering by
any fixed `absolute_time` value returns the matching entries in exactly
their concatenation order — entries with equal absolute start keep the
`(segment index, in-segment order)` order. -/
theorem merge_stable (chunks : List PipelineChunk) :
    (create_full_transcript chunks).transcript.Perm
      (chunks.flatMap chunk_full_entries) ∧
    List.Sorted (fun a b : FullEntry => a.absolute_time ≤ b.absolute_time)
      (create_full_transcript chunks).transcript ∧
    (∀ t : ℚ, (create_full_transcript chunks).transcript.filter
        (fun e => decide (e.absolute_time = t)) =
      (chunks.flatMap chunk_full_entries).filter
        (fun e => decide (e.absolute_time = t))) :=
  ⟨List.perm_insertionSort _ _,
   List.sorted_insertionSort _ _,
   fun t => filter_insertionSort_key (fun e : FullEntry => e.absolute_time) t _⟩

/-! ### The Dispatcher (`transcript_analyzer.py`)

`analyze_all_chunks_parallel` submits one future per chunk to a
`ThreadPoolExecutor` and then collects `future.result()` in submission
order, so the collected list is deterministic in chunk order; the
worker pool affects timing only.  A per-future exception is caught and
becomes `{"transcript": [], "error": str(e)}`. -/

/-- Models `_process_transcript_entry` (the `except` fallbacks around
timestamp parsing are unreachable because `parse_timestamp` itself never
raises; `i` and the chunk end time only feed log messages). -/
def process_transcript_entry (e : ChunkEntry) (_i : ℕ) (start_time : ℚ)
    (_end_time : ℚ) : ChunkEntry :=
  if e.type.isSome ∧ e.start_time.isSome ∧ e.end_time.isSome then
    let chunk_start_time := parse_timestamp (e.start_time.getD "")
    let chunk_end_time := parse_timestamp (e.end_time.getD "")
    let absolute_start_time := start_time + chunk_start_time
    let absolute_end_time := start_time + chunk_end_time
    let base := { e with
      absolute_start_time := some absolute_start_time
      absolute_end_time := some absolute_end_time
      absolute_start_timestamp := some (format_timestamp absolute_start_time)
      absolute_end_timestamp := some (format_timestamp absolute_end_time)
      time := e.start_time
      absolute_time := some absolute_start_time
      absolute_timestamp := some (format_timestamp absolute_start_time) }
    if e.type = some "utterance" then
      { base with
        speaker := some (e.speaker.getD "speaker")
        spoken_text := some (e.spoken_text.getD "")
        visual_description := some (e.visual_description.getD "") }
    else if e.type = some "event" then
      let ed := e.event_description.getD ""
      { base with
        event_description := some ed
        speaker := some (e.speaker.getD "")
        spoken_text := some (e.spoken_text.getD "")
        visual_description := some (e.visual_description.getD ed) }
    else base
  else if e.start_time.isSome ∧ e.end_time.isSome then
    let chunk_start_time := parse_timestamp (e.start_time.getD "")
    let chunk_end_time := parse_timestamp (e.end_time.getD "")
    let absolute_start_time := start_time + chunk_start_time
    let absolute_end_time := start_time + chunk_end_time
    { e with
      absolute_start_time := some absolute_start_time
      absolute_end_time := some absolute_end_time
      absolute_start_timestamp := some (format_timestamp absolute_start_time)
      absolute_end_timestamp := some (format_timestamp absolute_end_time)
      time := e.start_time
      absolute_time := some absolute_start_time
      absolute_timestamp := some (format_timestamp absolute_start_time)
      type := some (e.type.getD "utterance") }
  else if e.time.isSome then
    let chunk_time := parse_timestamp (e.time.getD "")
    let absolute_time := start_time + chunk_time
    { e with
      absolute_time := some absolute_time
      absolute_timestamp := some (format_timestamp absolute_time)
      start_time := e.time
      end_time := e.time
      absolute_start_time := some absolute_time
      absolute_end_time := some absolute_time
      absolute_start_timestamp := some (format_timestamp absolute_time)
      absolute_end_timestamp := some (format_timestamp absolute_time)
      type := some (e.type.getD "utterance") }
  else
    { e with
      time := some "00:00"
      start_time := some "00:00"
      end_time := some "00:00"
      absolute_time := some start_time
      absolute_timestamp := some (format_timestamp start_time)
      absolute_start_time := some start_time
      absolute_end_time := some start_time
      absolute_start_timestamp := some (format_timestamp start_time)
      absolute_end_timestamp := some (format_timestamp start_time)
      type := some (e.type.getD "utterance") }

/-- Models `analyze_chunk_transcript` from the AI-client response on: an
error response is returned as-is, otherwise every entry of
`result.get('transcript', [])` is processed and written back. -/
def analyze_chunk_transcript (result : ChunkTranscript) (start_time end_time : ℚ) :
    ChunkTranscript :=
  if truthy_str result.error then result
  else
    { result with
      transcript := some ((result.transcript.getD []).mapIdx
        fun i entry => process_transcript_entry entry i start_time end_time) }

/-- What one dispatched segment call did: return a response dictionary,
or raise an exception with message `msg` (Python `str(e)`). -/
inductive DispatchOutcome where
  | completed (result : ChunkTranscript)
  | raised (msg : String)
deriving DecidableEq, Repr

/-- Models `analyze_all_chunks_parallel`: one future per chunk, results
collected in submission (= segment) order, an exception for one chunk
caught locally and recorded as `{"transcript": [], "error": str(e)}`
without affecting the other chunks.  The analyzer never writes a
`success` key. -/
def analyze_all_chunks_parallel (chunks : List (ChunkInfo × DispatchOutcome)) :
    List PipelineChunk :=
  chunks.map fun ci =>
    match ci.2 with
    | .completed result =>
        { chunk_info := ci.1
          transcript := analyze_chunk_transcript result
            (ci.1.start_time.getD 0) (ci.1.end_time.getD 0)
          success := none }
    | .raised msg =>
        { chunk_info := ci.1
          transcript := { transcript := some [], error := some msg }
          success := none }

/-- The chunk record the analyzer produces for a successfully completed
segment call. -/
def analyzed_ok_chunk (info : ChunkInfo) (r : ChunkTranscript) : PipelineChunk :=
  { chunk_info := info
    transcript := analyze_chunk_transcript r (info.start_time.getD 0) (info.end_time.getD 0)
    success := none }

/-- The chunk record the analyzer produces when the segment call raised. -/
def analyzed_raised_chunk (info : ChunkInfo) (msg : String) : PipelineChunk :=
  { chunk_info := info
    transcript := { transcript := some [], error := some msg }
    success := none }

theorem analyze_all_chunks_map (chunks : List (ChunkInfo × DispatchOutcome)) :
    analyze_all_chunks_parallel chunks = chunks.map fun ci =>
      match ci.2 with
      | .completed result => analyzed_ok_chunk ci.1 result
      | .raised msg => analyzed_raised_chunk ci.1 msg := rfl

theorem check_from_cons_ok (i : ℕ) (info : ChunkInfo) (r : ChunkTranscript)
    (rest : List PipelineChunk) (h : truthy_str r.error = false) :
    check_pipeline_failed_chunks_from i (analyzed_ok_chunk info r :: rest) =
      check_pipeline_failed_chunks_from (i + 1) rest := by
  rw [check_pipeline_failed_chunks_from]
  have herr : truthy_str (analyze_chunk_transcript r
      (info.start_time.getD 0) (info.end_time.getD 0)).error = false := by
    unfold analyze_chunk_transcript
    rw [h]
    simpa using h
  have hsize : (analyze_chunk_transcript r
      (info.start_time.getD 0) (info.end_time.getD 0)).size ≠ 0 := by
    unfold analyze_chunk_transcript
    rw [h]
    simp [ChunkTranscript.size]
  simp [analyzed_ok_chunk, herr, hsize]

/-- The single error-severity issue reported for a raised segment call. -/
def raised_chunk_issue (info : ChunkInfo) (i : ℕ) : ValidationIssue :=
  { issue_type := "failed_chunk", severity := "error"
    start_time := info.start_time.getD 0
    end_time := info.end_time.getD (info.start_time.getD 0 + 1)
    chunk_index := some i }

theorem check_from_cons_raised (i : ℕ) (info : ChunkInfo) (msg : String)
    (rest : List PipelineChunk) (hmsg : msg ≠ "") :
    check_pipeline_failed_chunks_from i (analyzed_raised_chunk info msg :: rest) =
      raised_chunk_issue info i :: check_pipeline_failed_chunks_from (i + 1) rest := by
  rw [check_pipeline_failed_chunks_from]
  simp [truthy_str, hmsg, analyzed_raised_chunk, raised_chunk_issue]

/-- C8: failure isolation.  When segment index 2 of 5 raises during
dispatch (with the usual non-empty exception message) and the four
sibling calls return non-error responses, the failed segment's result
carries the error and contributes zero entries, the sibling segments are
processed exactly as they would be alone, the pipeline failed-chunk scan
reports exactly one error-severity issue and it references chunk index
2, and the merged transcript is a permutation of the entries contributed
by segments 0, 1, 3, 4 only. -/
theorem dispatch_failure_isolated
    (info0 info1 info2 info3 info4 : ChunkInfo)
    (res0 res1 res3 res4 : ChunkTranscript) (msg : String)
    (hmsg : msg ≠ "")
    (h0 : truthy_str res0.error = false) (h1 : truthy_str res1.error = false)
    (h3 : truthy_str res3.error = false) (h4 : truthy_str res4.error = false) :
    (check_pipeline_failed_chunks (analyze_all_chunks_parallel
        [(info0, .completed res0), (info1, .completed res1), (info2, .raised msg),
         (info3, .completed res3), (info4, .completed res4)])).length = 1 ∧
    (∀ iss ∈ check_pipeline_failed_chunks (analyze_all_chunks_parallel
        [(info0, .completed res0), (info1, .completed res1), (info2, .raised msg),
         (info3, .completed res3), (info4, .completed res4)]),
      iss.chunk_index = some 2 ∧ iss.issue_type = "failed_chunk" ∧
        iss.severity = "error") ∧
    chunk_full_entries (analyzed_raised_chunk info2 msg) = [] ∧
    (create_full_transcript (analyze_all_chunks_parallel
        [(info0, .completed res0), (info1, .completed res1), (info2, .raised msg),
         (info3, .completed res3), (info4, .completed res4)])).transcript.Perm
      (chunk_full_entries (analyzed_ok_chunk info0 res0) ++
        chunk_full_entries (analyzed_ok_chunk info1 res1) ++
        chunk_full_entries (analyzed_ok_chunk info3 res3) ++
        chunk_full_entries (analyzed_ok_chunk info4 res4)) := by
  have hlist : analyze_all_chunks_parallel
      [(info0, .completed res0), (info1, .completed res1), (info2, .raised msg),
       (info3, .completed res3), (info4, .completed res4)] =
      [analyzed_ok_chunk info0 res0, analyzed_ok_chunk info1 res1,
       analyzed_raised_chunk info2 msg, analyzed_ok_chunk info3 res3,
       analyzed_ok_chunk info4 res4] := rfl
  have hissues : check_pipeline_failed_chunks (analyze_all_chunks_parallel
      [(info0, .completed res0), (info1, .completed res1), (info2, .raised msg),
       (info3, .completed res3), (info4, .completed res4)]) =
      [raised_chunk_issue info2 2] := by
    show check_pipeline_failed_chunks_from 0 _ = _
    rw [hlist, check_from_cons_ok 0 info0 res0 _ h0,
      check_from_cons_ok 1 info1 res1 _ h1,
      check_from_cons_raised 2 info2 msg _ hmsg,
      check_from_cons_ok 3 info3 res3 _ h3, check_from_cons_ok 4 info4 res4 _ h4]
    rfl
  refine ⟨by rw [hissues]; rfl, ?_, rfl, ?_⟩
  · intro iss hiss
    rw [hissues] at hiss
    rcases List.mem_singleton.mp hiss with rfl
    exact ⟨rfl, rfl, rfl⟩
  · have hperm := List.perm_insertionSort
      (fun a b : FullEntry => a.absolute_time ≤ b.absolute_time)
      ((analyze_all_chunks_parallel
        [(info0, .completed res0), (info1, .completed res1), (info2, .raised msg),
         (info3, .completed res3), (info4, .completed res4)]).flatMap
        chunk_full_entries)
    refine hperm.trans (List.Perm.of_eq ?_)
    rw [hlist]
    show chunk_full_entries (analyzed_ok_chunk info0 res0) ++
      (chunk_full_entries (analyzed_ok_chunk info1 res1) ++
       (chunk_full_entries (analyzed_raised_chunk info2 msg) ++
        (chunk_full_entries (analyzed_ok_chunk info3 res3) ++
         (chunk_full_entries (analyzed_ok_chunk info4 res4) ++ [])))) = _
    rw [show chunk_full_entries (analyzed_raised_chunk info2 msg) = [] from rfl]
    simp [List.append_assoc]

/-- C8 counterexample: an exception whose `str(e)` is empty (e.g.
`raise Exception()`) still isolates the failure — segment 2 contributes
zero entries and carries `error = ""` — but produces NO failed-segment
issue at all: `result.get('error')` is falsy for the empty string and
the result dictionary is non-empty, so every branch of
`_check_pipeline_failed_chunks` is skipped, contradicting the claimed
"exactly one failed-segment issue referencing index 2". -/
theorem empty_message_failure_unreported :
    check_pipeline_failed_chunks (analyze_all_chunks_parallel
        [({}, .completed {}), ({}, .completed {}), ({}, .raised ""),
         ({}, .completed {}), ({}, .completed {})]) = [] := by
  show check_pipeline_failed_chunks_from 0 _ = _
  simp +decide [analyze_all_chunks_parallel, analyze_chunk_transcript,
    check_pipeline_failed_chunks_from, truthy_str, ChunkTranscript.size]

/-- Witness for `dispatch_failure_isolated`: five segments with empty
response dictionaries, segment 2 raising `Exception("boom")`. -/
theorem dispatch_failure_isolated_witness :
    ("boom" : String) ≠ "" ∧
    truthy_str ({} : ChunkTranscript).error = false ∧
    (check_pipeline_failed_chunks (analyze_all_chunks_parallel
        [({}, .completed {}), ({}, .completed {}), ({}, .raised "boom"),
         ({}, .completed {}), ({}, .completed {})])).length = 1 :=
  ⟨by decide, rfl,
   (dispatch_failure_isolated {} {} {} {} {} {} {} {} {} "boom"
     (by decide) rfl rfl rfl rfl).1⟩

/-! ### The Segmenter (`video_chunker.create_chunks`, time-based path)

`create_chunks` computes the time-based boundaries as
`for i in range(0, int(duration), config.chunk_duration):
   (i, min(i + chunk_duration, duration))`.
The physical `ffmpeg` extraction and the chunk-reuse check are I/O and
are not modelled; `duration` is `VideoFileClip.duration`, a float. -/

/-- Python's `range(0, stop, step)` for `step ≥ 1`:
`[0, step, 2*step, ...)` below `stop`. -/
def pyRange (stop step : ℕ) : List ℕ :=
  (List.range ((stop + step - 1) / step)).map (fun k => k * step)

/-- Models the time-based chunk-boundary loop of
`VideoChunker.create_chunks` (`int(duration)` truncates the float
duration; durations are non-negative, so truncation is the floor). -/
def create_chunks_time_based (duration : ℚ) (chunk_duration : ℕ) :
    List (ℚ × ℚ) :=
  (pyRange (⌊duration⌋).toNat chunk_duration).map
    fun (i : ℕ) => ((i : ℚ), min ((i : ℚ) + (chunk_duration : ℚ)) duration)

/-- C3 counterexample: for the positive fractional duration `1/2`
(`int(0.5) = 0`) time-based chunking produces NO intervals at all, so
the intervals do not cover `[0, duration)` and there is no final
interval ending at `duration`. -/
theorem time_based_chunking_misses_fractional_duration :
    create_chunks_time_based ((1 : ℚ) / 2) 300 = [] ∧ (0 : ℚ) < 1 / 2 := by
  constructor
  · have hfloor : (⌊(1 : ℚ) / 2⌋ : ℤ) = 0 := by
      rw [Int.floor_eq_zero_iff]
      constructor <;> norm_num
    unfold create_chunks_time_based pyRange
    rw [hfloor]
    rfl
  · norm_num

/-- C3 (amended): for every POSITIVE INTEGER total duration `n` and
every `chunk_duration ≥ 1`, the time-based intervals are the
consecutive fixed-width intervals `[0,d), [d,2d), ...`: the list is
nonempty, the `k`-th interval starts at `k*d`, each interval's end
equals the next interval's start, every interval is nonempty, and the
final interval's end equals the duration (truncated from width `d`).
For fractional durations coverage can fail (see the counterexample). -/
theorem time_based_chunking_covers_integer_duration (n d : ℕ)
    (hn : 1 ≤ n) (hd : 1 ≤ d) :
    create_chunks_time_based (n : ℚ) d ≠ [] ∧
    (create_chunks_time_based (n : ℚ) d).length = (n + d - 1) / d ∧
    ((create_chunks_time_based (n : ℚ) d).head?.map Prod.fst = some 0) ∧
    (∀ k, (hk : k < (create_chunks_time_based (n : ℚ) d).length) →
      ((create_chunks_time_based (n : ℚ) d).get ⟨k, hk⟩).1 = ((k * d : ℕ) : ℚ)) ∧
    List.Chain' (fun p q => p.2 = q.1) (create_chunks_time_based (n : ℚ) d) ∧
    ((create_chunks_time_based (n : ℚ) d).getLast?.map Prod.snd = some (n : ℚ)) ∧
    (∀ p ∈ create_chunks_time_based (n : ℚ) d, p.1 < p.2) := by
  have hfloor : (⌊(n : ℚ)⌋).toNat = n := by
    rw [Int.floor_natCast, Int.toNat_natCast]
  have hm : (n + d - 1) / d = (n - 1) / d + 1 := by
    have h : n + d - 1 = (n - 1) + d := by omega
    rw [h, Nat.add_div_right _ (by omega)]
  set q := (n - 1) / d with hq
  have hqd : q * d + (n - 1) % d = n - 1 := by
    rw [Nat.mul_comm]; exact Nat.div_add_mod (n - 1) d
  have hmod : (n - 1) % d < d := Nat.mod_lt _ (by omega)
  have hq_lt : q * d < n := by omega
  have hstep : n ≤ q * d + d := by omega
  have hrep : create_chunks_time_based (n : ℚ) d =
      (List.range (q + 1)).map (fun k =>
        (((k * d : ℕ) : ℚ), min (((k * d : ℕ) : ℚ) + (d : ℚ)) ((n : ℕ) : ℚ))) := by
    unfold create_chunks_time_based pyRange
    rw [hfloor, hm, List.map_map]
    rfl
  have hmul_le : ∀ k, k ≤ q → k * d ≤ q * d := fun k hk =>
    Nat.mul_le_mul_right d hk
  refine ⟨?_, ?_, ?_, ?_, ?_, ?_, ?_⟩
  · rw [hrep]
    simp
  · rw [hrep, hm]
    simp
  · rw [hrep, List.range_succ_eq_map]
    simp
  · intro k hk
    rw [List.get_eq_getElem, List.getElem_of_eq hrep hk]
    simp
  · rw [hrep, List.chain'_map, List.chain'_range_succ]
    intro k hk
    have hle : (k + 1) * d ≤ q * d := hmul_le (k + 1) hk
    have hlt : ((k + 1) * d : ℕ) < n := lt_of_le_of_lt hle hq_lt
    show min (((k * d : ℕ) : ℚ) + (d : ℚ)) ((n : ℕ) : ℚ) = (((k + 1) * d : ℕ) : ℚ)
    have hcast : ((k * d : ℕ) : ℚ) + (d : ℚ) = (((k + 1) * d : ℕ) : ℚ) := by
      push_cast
      ring
    rw [hcast]
    exact min_eq_left (by exact_mod_cast le_of_lt hlt)
  · rw [hrep, List.range_succ, List.map_append, List.map_singleton,
      List.getLast?_concat]
    show some (min (((q * d : ℕ) : ℚ) + (d : ℚ)) ((n : ℕ) : ℚ)) = some ((n : ℕ) : ℚ)
    have : min (((q * d : ℕ) : ℚ) + (d : ℚ)) ((n : ℕ) : ℚ) = ((n : ℕ) : ℚ) := by
      refine min_eq_right ?_
      have : ((n : ℕ) : ℚ) ≤ ((q * d + d : ℕ) : ℚ) := by exact_mod_cast hstep
      simpa using this
    rw [this]
  · intro p hp
    rw [hrep] at hp
    rcases List.mem_map.mp hp with ⟨k, hk, rfl⟩
    have hk' : k ≤ q := by
      have := List.mem_range.mp hk
      omega
    have hlt : (k * d : ℕ) < n := lt_of_le_of_lt (hmul_le k hk') hq_lt
    show ((k * d : ℕ) : ℚ) < min (((k * d : ℕ) : ℚ) + (d : ℚ)) ((n : ℕ) : ℚ)
    refine lt_min ?_ ?_
    · have : (0 : ℚ) < (d : ℚ) := by exact_mod_cast (by omega : 0 < d)
      linarith
    · exact_mod_cast hlt

/-- Witness for `time_based_chunking_covers_integer_duration` at the
spec's end-to-end scenario `duration = 630`, `chunk_duration = 300`
(three intervals, the last truncated to 630). -/
theorem time_based_chunking_covers_integer_duration_witness :
    1 ≤ 630 ∧ 1 ≤ 300 ∧
    ((create_chunks_time_based ((630 : ℕ) : ℚ) 300).getLast?.map Prod.snd =
      some ((630 : ℕ) : ℚ)) :=
  ⟨by decide, by decide,
   (time_based_chunking_covers_integer_duration 630 300
     (by decide) (by decide)).2.2.2.2.2.1⟩

/-! ### Configuration fingerprint and transcript cache
(`models.TranscriptionConfig.get_config_hash`, `storage/cache_manager.py`,
`pipeline.process_video`)

`get_config_hash` builds
`f"{video_input}_{chunk_duration}{chunk_size_str}_{max_workers}_{model.value}_{pipeline_version}"`
and returns the first 16 hex characters of its SHA-256
(`hashlib.sha256(config_string.encode()).hexdigest()[:16]`).  SHA-256 is
implemented below in full (FIPS 180-4, one-shot padding), over naturals
reduced mod `2^32`, with UTF-8 encoding of the configuration string;
`sha256_vector_abc` / `sha256_vector_empty` check the implementation
against the standard test vectors inside the kernel.

The cache directory is modelled as an association list from cache file
name to the recorded transcript path, together with the set of file
paths that currently resolve; `check_existing_transcript`'s corrupted-
JSON handler is not modelled (all index entries are well-formed). -/

/-- Reduction mod `2^32`, the word size of SHA-256. -/
def w32 (n : ℕ) : ℕ := n % 4294967296

/-- Right rotation of a 32-bit word. -/
def rotr32 (x n : ℕ) : ℕ := w32 ((x >>> n) ||| (x <<< (32 - n)))

/-- The SHA-256 initial hash value `H(0)`. -/
def sha256_h0 : List ℕ :=
  [1779033703, 3144134277, 1013904242, 2773480762,
   1359893119, 2600822924, 528734635, 1541459225]

/-- The SHA-256 round constants `K`. -/
def sha256_k : List ℕ :=
  [1116352408, 1899447441, 3049323471, 3921009573, 961987163,
   1508970993, 2453635748, 2870763221, 3624381080, 310598401,
   607225278, 1426881987, 1925078388, 2162078206, 2614888103,
   3248222580, 3835390401, 4022224774, 264347078, 604807628,
   770255983, 1249150122, 1555081692, 1996064986, 2554220882,
   2821834349, 2952996808, 3210313671, 3336571891, 3584528711,
   113926993, 338241895, 666307205, 773529912, 1294757372,
   1396182291, 1695183700, 1986661051, 2177026350, 2456956037,
   2730485921, 2820302411, 3259730800, 3345764771, 3516065817,
   3600352804, 4094571909, 275423344, 430227734, 506948616,
   659060556, 883997877, 958139571, 1322822218, 1537002063,
   1747873779, 1955562222, 2024104815, 2227730452, 2361852424,
   2428436474, 2756734187, 3204031479, 3329325298]

/-- SHA-256 padding: `0x80`, zeros to 56 mod 64, then the bit length as
eight big-endian bytes. -/
def sha256_pad (msg : List ℕ) : List ℕ :=
  let len_bits := msg.length * 8
  let zeros := (119 - msg.length % 64) % 64
  msg ++ 128 :: List.replicate zeros 0 ++
    ((List.range 8).map fun i => (len_bits >>> (8 * (7 - i))) % 256)

/-- Big-endian bytes to 32-bit words. -/
def sha256_to_words : List ℕ → List ℕ
  | b0 :: b1 :: b2 :: b3 :: rest =>
      (((b0 * 256 + b1) * 256 + b2) * 256 + b3) :: sha256_to_words rest
  | _ => []

/-- Split a padded word list into 16-word blocks (padding always yields
a multiple of 16 words). -/
def sha256_to_blocks : List ℕ → List (List ℕ)
  | w0 :: w1 :: w2 :: w3 :: w4 :: w5 :: w6 :: w7 ::
      w8 :: w9 :: w10 :: w11 :: w12 :: w13 :: w14 :: w15 :: rest =>
      [w0, w1, w2, w3, w4, w5, w6, w7, w8, w9, w10, w11, w12, w13, w14, w15] ::
        sha256_to_blocks rest
  | _ => []

/-- One step of the message-schedule extension. -/
def sha256_extend_step (ws : List ℕ) : List ℕ :=
  let n := ws.length
  let w15 := ws.getD (n - 15) 0
  let w2 := ws.getD (n - 2) 0
  let s0 := rotr32 w15 7 ^^^ rotr32 w15 18 ^^^ (w15 >>> 3)
  let s1 := rotr32 w2 17 ^^^ rotr32 w2 19 ^^^ (w2 >>> 10)
  ws ++ [w32 (ws.getD (n - 16) 0 + s0 + ws.getD (n - 7) 0 + s1)]

/-- Iterated schedule extension. -/
def sha256_extend_n : ℕ → List ℕ → List ℕ
  | 0, ws => ws
  | n + 1, ws => sha256_extend_n n (sha256_extend_step ws)

/-- Extend a 16-word block to the 64-word message schedule (the
"while length < 64" loop runs exactly 48 times from a 16-word block). -/
def sha256_extend (ws : List ℕ) : List ℕ := sha256_extend_n 48 ws

/-- One SHA-256 compression round. -/
def sha256_compress (state : List ℕ) (k w : ℕ) : List ℕ :=
  match state with
  | [a, b, c, d, e, f, g, h] =>
      let s1 := rotr32 e 6 ^^^ rotr32 e 11 ^^^ rotr32 e 25
      let ch := (e &&& f) ^^^ ((e ^^^ 4294967295) &&& g)
      let temp1 := w32 (h + s1 + ch + k + w)
      let s0 := rotr32 a 2 ^^^ rotr32 a 13 ^^^ rotr32 a 22
      let maj := (a &&& b) ^^^ (a &&& c) ^^^ (b &&& c)
      let temp2 := w32 (s0 + maj)
      [w32 (temp1 + temp2), a, b, c, w32 (d + temp1), e, f, g]
  | other => other

/-- Process one 16-word block into the running hash state. -/
def sha256_process_block (hstate : List ℕ) (block : List ℕ) : List ℕ :=
  let ws := sha256_extend block
  let s := (sha256_k.zip ws).foldl (fun st kw => sha256_compress st kw.1 kw.2) hstate
  (hstate.zip s).map fun p => w32 (p.1 + p.2)

/-- The eight 32-bit digest words of a byte message. -/
def sha256_digest_words (msg : List ℕ) : List ℕ :=
  (sha256_to_blocks (sha256_to_words (sha256_pad msg))).foldl
    sha256_process_block sha256_h0

/-- Lowercase hex digit, as Python's `hexdigest` uses. -/
def hex_char (n : ℕ) : Char :=
  if n < 10 then Char.ofNat (48 + n) else Char.ofNat (87 + n)

/-- Eight hex characters of one 32-bit word, most significant first. -/
def word_to_hex (x : ℕ) : List Char :=
  (List.range 8).map fun i => hex_char ((x >>> (4 * (7 - i))) % 16)

/-- The 64 hex characters of `hashlib.sha256(msg).hexdigest()`. -/
def sha256_hexdigest (msg : List ℕ) : List Char :=
  (sha256_digest_words msg).flatMap word_to_hex

/-- UTF-8 bytes of one character (Python's `str.encode()`). -/
def utf8_bytes (c : Char) : List ℕ :=
  let n := c.toNat
  if n < 128 then [n]
  else if n < 2048 then [192 ||| (n >>> 6), 128 ||| (n &&& 63)]
  else if n < 65536 then
    [224 ||| (n >>> 12), 128 ||| ((n >>> 6) &&& 63), 128 ||| (n &&& 63)]
  else
    [240 ||| (n >>> 18), 128 ||| ((n >>> 12) &&& 63),
     128 ||| ((n >>> 6) &&& 63), 128 ||| (n &&& 63)]

/-- UTF-8 encoding of a string. -/
def string_utf8 (s : String) : List ℕ := s.data.flatMap utf8_bytes

/-- FIPS 180-4 test vector: `sha256("abc")`. -/
theorem sha256_vector_abc :
    String.mk (sha256_hexdigest (string_utf8 "abc")) =
      "ba7816bf8f01cfea414140de5dae2223b00361a396177a9cb410ff61f20015ad" := by
  decide

/-- FIPS 180-4 test vector: `sha256("")`. -/
theorem sha256_vector_empty :
    String.mk (sha256_hexdigest (string_utf8 "")) =
      "e3b0c44298fc1c149afbf4c8996fb92427ae41e4649b934ca495991b7852b855" := by
  decide

/-- Models `models.ModelType`. -/
inductive ModelType where
  | gemini_2_5_pro
  | gemini_1_5_pro
deriving DecidableEq, Repr

/-- The `.value` string of a model. -/
def ModelType.value : ModelType → String
  | .gemini_2_5_pro => "gemini-2.5-pro"
  | .gemini_1_5_pro => "gemini-1.5-pro"

theorem ModelType.value_injective {m1 m2 : ModelType}
    (h : m1.value = m2.value) : m1 = m2 := by
  cases m1 <;> cases m2 <;> first | rfl | exact absurd h (by decide)

/-- The fingerprint-relevant fields of `models.TranscriptionConfig`. -/
structure TranscriptionConfig where
  video_input : String
  chunk_duration : ℕ := 300
  chunk_size_mb : Option ℕ := none
  max_workers : ℕ := 4
  model : ModelType := .gemini_2_5_pro
  pipeline_version : String := "1.0"
  force_reprocess : Bool := false
deriving DecidableEq, Repr

/-- The `config_string` built inside `get_config_hash`. -/
def config_string (c : TranscriptionConfig) : String :=
  c.video_input ++ "_" ++ natToString c.chunk_duration ++
    (match c.chunk_size_mb with
     | none => ""
     | some k => "_" ++ natToString k) ++
    "_" ++ natToString c.max_workers ++ "_" ++ c.model.value ++ "_" ++
    c.pipeline_version

/-- Models `get_config_hash`:
`hashlib.sha256(config_string.encode()).hexdigest()[:16]`. -/
def get_config_hash (c : TranscriptionConfig) : String :=
  String.mk ((sha256_hexdigest (string_utf8 (config_string c))).take 16)

theorem natToString_data_inj {a b : ℕ}
    (h : (natToString a).data = (natToString b).data) : a = b := by
  have h' : natDigits a = natDigits b := h
  have hv := congrArg digitsVal h'
  rwa [digitsVal_natDigits, digitsVal_natDigits] at hv

/-- Changing exactly one of worker count, chunk duration or model
identity (the other fingerprint fields unchanged) changes the
configuration string. -/
theorem config_string_ne_of_field_change (c1 c2 : TranscriptionConfig)
    (hvi : c1.video_input = c2.video_input)
    (hcs : c1.chunk_size_mb = c2.chunk_size_mb)
    (hver : c1.pipeline_version = c2.pipeline_version)
    (hdiff :
      (c1.max_workers ≠ c2.max_workers ∧ c1.chunk_duration = c2.chunk_duration ∧
        c1.model = c2.model) ∨
      (c1.chunk_duration ≠ c2.chunk_duration ∧ c1.max_workers = c2.max_workers ∧
        c1.model = c2.model) ∨
      (c1.model ≠ c2.model ∧ c1.chunk_duration = c2.chunk_duration ∧
        c1.max_workers = c2.max_workers)) :
    config_string c1 ≠ config_string c2 := by
  intro h
  have hdata := congrArg String.data h
  rcases hdiff with ⟨hw, hcd, hmodel⟩ | ⟨hcd, hw, hmodel⟩ | ⟨hmodel, hcd, hw⟩
  · rw [show config_string c1 = c2.video_input ++ "_" ++
        natToString c2.chunk_duration ++
        (match c2.chunk_size_mb with
         | none => ""
         | some k => "_" ++ natToString k) ++
        "_" ++ natToString c1.max_workers ++ "_" ++ c2.model.value ++ "_" ++
        c2.pipeline_version by
      rw [config_string, hvi, hcs, hver, hcd, hmodel]] at hdata
    rw [config_string] at hdata
    simp only [String.data_append, List.append_assoc] at hdata
    have h1 := List.append_cancel_left hdata
    have h2 := List.append_cancel_left h1
    have h3 := List.append_cancel_left h2
    have h4 := List.append_cancel_left h3
    have h5 := List.append_cancel_left h4
    have h6 := List.append_cancel_right h5
    exact hw (natToString_data_inj h6)
  · rw [show config_string c1 = c2.video_input ++ "_" ++
        natToString c1.chunk_duration ++
        (match c2.chunk_size_mb with
         | none => ""
         | some k => "_" ++ natToString k) ++
        "_" ++ natToString c2.max_workers ++ "_" ++ c2.model.value ++ "_" ++
        c2.pipeline_version by
      rw [config_string, hvi, hcs, hver, hw, hmodel]] at hdata
    rw [config_string] at hdata
    simp only [String.data_append, List.append_assoc] at hdata
    have h1 := List.append_cancel_left hdata
    have h2 := List.append_cancel_left h1
    have h3 := List.append_cancel_right h2
    exact hcd (natToString_data_inj h3)
  · rw [show config_string c1 = c2.video_input ++ "_" ++
        natToString c2.chunk_duration ++
        (match c2.chunk_size_mb with
         | none => ""
         | some k => "_" ++ natToString k) ++
        "_" ++ natToString c2.max_workers ++ "_" ++ c1.model.value ++ "_" ++
        c2.pipeline_version by
      rw [config_string, hvi, hcs, hver, hcd, hw]] at hdata
    rw [config_string] at hdata
    simp only [String.data_append, List.append_assoc] at hdata
    have h1 := List.append_cancel_left hdata
    have h2 := List.append_cancel_left h1
    have h3 := List.append_cancel_left h2
    have h4 := List.append_cancel_left h3
    have h5 := List.append_cancel_left h4
    have h6 := List.append_cancel_left h5
    have h7 := List.append_cancel_left h6
    have h8 := List.append_cancel_right h7
    exact hmodel (ModelType.value_injective (by
      apply congrArg String.mk at h8
      simpa using h8))

/-- The global cache: the index entries
(`{video_id}_{config_hash}.json` → recorded `transcript_path`) and the
set of file paths that currently resolve on disk. -/
structure CacheState where
  index : List (String × String)
  files : List String

/-- The cache file name `f"{video_id}_{config_hash}.json"`. -/
def cache_file_name (video_id config_hash : String) : String :=
  video_id ++ "_" ++ config_hash ++ ".json"

/-- Models `CacheManager.check_existing_transcript`: a hit requires both
an index entry and a still-resolvable transcript path; a stale entry is
evicted and treated as a miss. -/
def check_existing_transcript (st : CacheState) (video_id : String)
    (c : TranscriptionConfig) : Option String × CacheState :=
  let cache_file := cache_file_name video_id (get_config_hash c)
  match st.index.lookup cache_file with
  | some transcript_path =>
      if transcript_path ∈ st.files then (some transcript_path, st)
      else (none, { st with index := st.index.eraseP fun kv => kv.1 == cache_file })
  | none => (none, st)

/-- Models `CacheManager.save_transcript_cache`: writing the cache file
overwrites any previous entry under the same name. -/
def save_transcript_cache (st : CacheState)
    (video_id config_hash transcript_path : String) : CacheState :=
  { st with index :=
      (cache_file_name video_id config_hash, transcript_path) ::
        st.index.eraseP fun kv => kv.1 == cache_file_name video_id config_hash }

/-- The run-scoped transcript artifact path
`run_dir/transcripts/{video_id}_full_transcript.json`. -/
def transcript_output_path (run_id video_id : String) : String :=
  run_id ++ "/transcripts/" ++ video_id ++ "_full_transcript.json"

/-- The non-cached path of `process_video`: run the Dispatcher, write
the transcript artifact, record it in the global cache. -/
def process_video_fresh (st : CacheState) (run_id video_id : String)
    (c : TranscriptionConfig) : Bool × CacheState :=
  let path := transcript_output_path run_id video_id
  (true,
    save_transcript_cache { st with files := path :: st.files }
      video_id (get_config_hash c) path)

/-- Models the caching skeleton of `TranscriptionPipeline.process_video`:
with `force_reprocess = false` a cache hit short-circuits before the
Dispatcher; the returned Bool records whether the Dispatcher phase ran. -/
def process_video (st : CacheState) (run_id video_id : String)
    (c : TranscriptionConfig) : Bool × CacheState :=
  if c.force_reprocess = false then
    let checked := check_existing_transcript st video_id c
    match checked.1 with
    | some _ => (false, checked.2)
    | none => process_video_fresh checked.2 run_id video_id c
  else process_video_fresh st run_id video_id c

theorem lookup_eraseP_of_lookup_none {k : String} (p : String × String → Bool) :
    ∀ l : List (String × String), l.lookup k = none →
      (l.eraseP p).lookup k = none := by
  intro l
  induction l with
  | nil => intro _; rfl
  | cons a t ih =>
      intro h
      rw [List.lookup_cons] at h
      split at h
      · cases h
      · rename_i hne
        rw [List.eraseP_cons]
        cases hpa : p a
        · simp only [cond_false]
          rw [List.lookup_cons, hne]
          exact ih h
        · simp only [cond_true]
          exact h

theorem cache_file_name_inj_hash {video_id h1 h2 : String}
    (h : cache_file_name video_id h1 = cache_file_name video_id h2) : h1 = h2 := by
  have hdata := congrArg String.data h
  rw [cache_file_name, cache_file_name] at hdata
  simp only [String.data_append, List.append_assoc] at hdata
  have ha := List.append_cancel_left hdata
  have hb := List.append_cancel_left ha
  have hc := List.append_cancel_right hb
  apply congrArg String.mk at hc
  simpa using hc

/-- Cache behaviour of `process_video`: starting from a cache with no
entry for either fingerprint and `force_reprocess = false`, a fresh run
followed by a run of the same configuration invokes the Dispatcher
exactly once combined (the second run short-circuits to the cached
transcript), and a second run of a configuration whose fingerprint
differs (hypothesis `hhash`) runs the Dispatcher afresh.  Whether every
worker-count / chunk-duration / model change yields a different
fingerprint is the collision-freeness of the 16-hex-character truncated
SHA-256 over the changed configuration strings
(`config_string_ne_of_field_change` proves the strings themselves always
differ, and `config_hash_sensitivity` checks representative changed
fingerprints differ by computing the real hash), which is a
cryptographic assumption, not a theorem. -/
theorem cache_dispatch_behaviour (st : CacheState) (run_id1 run_id2 : String)
    (video_id : String) (c c2 : TranscriptionConfig)
    (hforce : c.force_reprocess = false)
    (hforce2 : c2.force_reprocess = false)
    (hnone : st.index.lookup (cache_file_name video_id (get_config_hash c)) = none)
    (hnone2 : st.index.lookup (cache_file_name video_id (get_config_hash c2)) = none)
    (hhash : get_config_hash c2 ≠ get_config_hash c) :
    (process_video st run_id1 video_id c).1 = true ∧
    (process_video (process_video st run_id1 video_id c).2
      run_id2 video_id c).1 = false ∧
    (process_video (process_video st run_id1 video_id c).2
      run_id2 video_id c2).1 = true := by
  have hrun1 : process_video st run_id1 video_id c =
      process_video_fresh st run_id1 video_id c := by
    rw [process_video, if_pos hforce]
    rw [show check_existing_transcript st video_id c = (none, st) by
      rw [check_existing_transcript, hnone]]
  have hst1 : (process_video st run_id1 video_id c).2 =
      save_transcript_cache
        { st with files := transcript_output_path run_id1 video_id :: st.files }
        video_id (get_config_hash c) (transcript_output_path run_id1 video_id) := by
    rw [hrun1]; rfl
  refine ⟨by rw [hrun1]; rfl, ?_, ?_⟩
  · rw [process_video, if_pos hforce]
    have hlookup : ((process_video st run_id1 video_id c).2).index.lookup
        (cache_file_name video_id (get_config_hash c)) =
        some (transcript_output_path run_id1 video_id) := by
      rw [hst1, save_transcript_cache]
      simp [List.lookup_cons]
    have hfile : transcript_output_path run_id1 video_id ∈
        ((process_video st run_id1 video_id c).2).files := by
      rw [hst1, save_transcript_cache]
      exact List.mem_cons_self _ _
    have hcheck : check_existing_transcript (process_video st run_id1 video_id c).2
        video_id c =
        (some (transcript_output_path run_id1 video_id),
          (process_video st run_id1 video_id c).2) := by
      rw [check_existing_transcript, hlookup]
      simp [hfile]
    simp only [hcheck]
  · rw [process_video, if_pos hforce2]
    have hkey2 : (cache_file_name video_id (get_config_hash c2) ==
        cache_file_name video_id (get_config_hash c)) = false := by
      rw [beq_eq_false_iff_ne]
      exact fun he => hhash (cache_file_name_inj_hash he)
    have hlookup2 : ((process_video st run_id1 video_id c).2).index.lookup
        (cache_file_name video_id (get_config_hash c2)) = none := by
      rw [hst1, save_transcript_cache]
      rw [List.lookup_cons]
      split
      · simp_all
      · exact lookup_eraseP_of_lookup_none _ st.index hnone2
    have hcheck2 : check_existing_transcript (process_video st run_id1 video_id c).2
        video_id c2 =
        (none, (process_video st run_id1 video_id c).2) := by
      rw [check_existing_transcript, hlookup2]
    simp only [hcheck2]
    rfl

/-- A sample configuration with the default chunking/worker/model
settings. -/
def cfgDefault : TranscriptionConfig := { video_input := "video.mp4" }

/-- `cfgDefault` with the worker count changed from 4 to 8. -/
def cfgEightWorkers : TranscriptionConfig :=
  { video_input := "video.mp4", max_workers := 8 }

/-- `cfgDefault` with the chunk duration changed from 300 to 600. -/
def cfgChunk600 : TranscriptionConfig :=
  { video_input := "video.mp4", chunk_duration := 600 }

/-- `cfgDefault` with the model changed to `gemini-1.5-pro`. -/
def cfgOtherModel : TranscriptionConfig :=
  { video_input := "video.mp4", model := .gemini_1_5_pro }

/-- The real truncated-SHA-256 fingerprint of the sample configuration,
computed inside the kernel. -/
theorem config_hash_cfgDefault :
    get_config_hash cfgDefault = "89be52c1d8a61aad" := by
  decide

/-- Changing the worker count, the chunk duration or the model identity
of the sample configuration changes its real truncated-SHA-256
fingerprint (each pair computed and compared inside the kernel). -/
theorem config_hash_sensitivity :
    get_config_hash cfgEightWorkers ≠ get_config_hash cfgDefault ∧
    get_config_hash cfgChunk600 ≠ get_config_hash cfgDefault ∧
    get_config_hash cfgOtherModel ≠ get_config_hash cfgDefault := by
  refine ⟨?_, ?_, ?_⟩ <;> decide

/-- Both dispatch-counting conclusions of `cache_dispatch_behaviour`,
instantiated on an empty cache with the sample configuration and its
changed-worker-count variant, whose fingerprints provably differ. -/
theorem cache_dispatch_behaviour_example :
    (process_video ⟨[], []⟩ "run1" "video" cfgDefault).1 = true ∧
    (process_video (process_video ⟨[], []⟩ "run1" "video" cfgDefault).2
      "run2" "video" cfgDefault).1 = false ∧
    (process_video (process_video ⟨[], []⟩ "run1" "video" cfgDefault).2
      "run2" "video" cfgEightWorkers).1 = true :=
  cache_dispatch_behaviour ⟨[], []⟩ "run1" "run2" "video"
    cfgDefault cfgEightWorkers rfl rfl rfl rfl config_hash_sensitivity.1

end Transcription
